import Mathlib

/-!
# NME `Graphics.h`: a shallow embedding and its checked properties

The header `project2/include/Graphics.h` declares the pixel formats, the
reference counted graphics-data class hierarchy (fills, strokes, paths), the
render batches, `Rect`, and the `Graphics` display list.

Conventions of the embedding
* a C++ `int` is an `Int` kept in the 32-bit two's-complement range by `wrap32`;
* a `float` / `double` is stored by its IEEE-754 bit pattern (the header only
  stores and copies them, it never computes with them);
* a `QuickVec<T>` is a `List T`;
* a pointer is an `Option` of the object it points to (`none` is the null pointer);
* a virtual call is a function on the sum of the dynamic classes, which selects
  the override the header gives for the class, or the base-class body.

Member functions that the header only declares (their bodies are in no file of
this source tree) are modelled from the specification; each such definition
says so in its doc comment.
-/

namespace NME

/-! ## Machine integers and floating point storage -/

/-- Smallest value of a 32-bit `int`. -/
def INT_MIN : Int := -2147483648

/-- Largest value of a 32-bit `int`. -/
def INT_MAX : Int := 2147483647

/-- Reduction of a mathematical integer to the 32-bit two's-complement range. -/
def wrap32 (v : Int) : Int := (v + 2147483648) % 4294967296 - 2147483648

/-- The integer is representable as a 32-bit `int`. -/
def isInt32 (v : Int) : Prop := INT_MIN ≤ v ∧ v ≤ INT_MAX

instance (v : Int) : Decidable (isInt32 v) := by
  unfold isInt32; exact inferInstance

/-- A C++ `float`, stored by its 32-bit IEEE-754 pattern. -/
structure float where
  bits : Nat
deriving DecidableEq, Repr

/-- A C++ `double`, stored by its 64-bit IEEE-754 pattern. -/
structure double where
  bits : Nat
deriving DecidableEq, Repr

/-- The `float` literal `0` (all bits clear). -/
def float.zero : float := ⟨0⟩

/-! ## Pixel formats (`enum PixelFormat`, lines 17-26) -/

/-- Enumerators of `enum PixelFormat`. -/
inductive PixelFormat where
  | pfXRGB
  | pfARGB
  | pfXBGR
  | pfABGR
  | pfHasAlpha
  | pfBGROrder
deriving DecidableEq, Repr

/-- Integer value the header assigns to each enumerator. -/
def PixelFormat.val : PixelFormat → Nat
  | .pfXRGB => 0x00
  | .pfARGB => 0x01
  | .pfXBGR => 0x02
  | .pfABGR => 0x03
  | .pfHasAlpha => 0x01
  | .pfBGROrder => 0x02

/-- The four concrete layouts (the first four enumerators). -/
def PixelFormat.layouts : List PixelFormat :=
  [.pfXRGB, .pfARGB, .pfXBGR, .pfABGR]

/-- C++ `(f & flag) != 0` on enumerator values. -/
def PixelFormat.hasFlag (f flag : PixelFormat) : Bool :=
  (f.val &&& flag.val) != 0

/-! ## `Rect` (lines 293-304) -/

/-- Fields of `struct Rect`: `int x,y; int w,h;`. -/
structure Rect where
  x : Int
  y : Int
  w : Int
  h : Int
deriving DecidableEq, Repr

/-- All four fields hold 32-bit `int` values. -/
def Rect.WF (r : Rect) : Prop :=
  isInt32 r.x ∧ isInt32 r.y ∧ isInt32 r.w ∧ isInt32 r.h

instance (r : Rect) : Decidable r.WF := by
  unfold Rect.WF; exact inferInstance

/-- Constructor `Rect(int inW=0,int inH=0) : x(0), y(0), w(inW), h(inH)`. -/
def Rect.new2 (inW : Int) (inH : Int) : Rect :=
  { x := 0, y := 0, w := inW, h := inH }

/-- Constructor `Rect(int inX,int inY,int inW,int inH)`. -/
def Rect.new4 (inX inY inW inH : Int) : Rect :=
  { x := inX, y := inY, w := inW, h := inH }

/-- Member `int x1() const { return x+w; }`. -/
def Rect.x1 (r : Rect) : Int := wrap32 (r.x + r.w)

/-- Member `int y1() const { return y+h; }`. -/
def Rect.y1 (r : Rect) : Int := wrap32 (r.y + r.h)

/-- Storing an integer in an `int` field with saturation: values beyond the
`int` range are kept at the nearest bound, so the sign is never changed. -/
def sat32 (v : Int) : Int := max INT_MIN (min INT_MAX v)

/-- Modelled from the spec: the body of `Rect::Intersect` (declared at line 298,
defined in no file of this tree). The spec fixes a Rect as integer x, y, width,
height with `x1 = x+w`, `y1 = y+h`, and the intersection as well-defined for any
two rects, with a possibly empty (w≤0 or h≤0) result. The result starts at the
larger of the two left/top edges and ends at the smaller of the two right/bottom
edges `x+w`, `y+h` (sums of the spec's integers); its width and height are the
differences of these edges, stored in the `int` fields with saturation. -/
def Rect.Intersect (r : Rect) (inOther : Rect) : Rect :=
  let x0 := max r.x inOther.x
  let y0 := max r.y inOther.y
  let x1 := min (r.x + r.w) (inOther.x + inOther.w)
  let y1 := min (r.y + r.h) (inOther.y + inOther.h)
  Rect.new4 x0 y0 (sat32 (x1 - x0)) (sat32 (y1 - y0))

/-- The pixel `(px, py)` lies in the area of the rectangle:
`x ≤ px < x + w` and `y ≤ py < y + h`. -/
def Rect.Contains (r : Rect) (px py : Int) : Prop :=
  r.x ≤ px ∧ px < r.x + r.w ∧ r.y ≤ py ∧ py < r.y + r.h

/-- The areas of the two rectangles have no pixel in common. -/
def Rect.Disjoint (a b : Rect) : Prop :=
  ∀ px py : Int, ¬ (a.Contains px py ∧ b.Contains px py)

/-! ## Graphics data classes (lines 51-242) -/

/-- Enumerators of `enum GraphicsDataType` (lines 51-55). -/
inductive GraphicsDataType where
  | gdtUnknown
  | gdtEndFill
  | gdtSolidFill
  | gdtGradientFill
  | gdtBitmapFill
  | gdtPath
  | gdtTrianglePath
  | gdtStroke
deriving DecidableEq, Repr

/-- Modelled from the spec: `Matrix` comes from `Matrix.h`, which is not in this
tree; the spec calls it a 2D affine transform, kept here as its six
coefficients. -/
structure Matrix where
  m00 : double
  m01 : double
  m10 : double
  m11 : double
  mtx : double
  mty : double
deriving DecidableEq, Repr

/-- Fields of `struct GradStop`. -/
structure GradStop where
  mAlpha : float
  mRGB : Int
deriving DecidableEq, Repr

/-- Enumerators of `enum InterpolationMethod`. -/
inductive InterpolationMethod where
  | imLinearRGB
  | imRGB
deriving DecidableEq, Repr

/-- Enumerators of `enum SpreadMethod`. -/
inductive SpreadMethod where
  | smPad
  | smReflect
  | smRepeat
deriving DecidableEq, Repr

/-- Enumerators of `enum StrokeCaps`. -/
inductive StrokeCaps where
  | scNone
  | scRound
  | scSquare
deriving DecidableEq, Repr

/-- Enumerators of `enum StrokeJoints`. -/
inductive StrokeJoints where
  | sjMiter
  | sjRound
  | sjBevel
deriving DecidableEq, Repr

/-- Enumerators of `enum StrokeScaleMode`. -/
inductive StrokeScaleMode where
  | ssmNormal
  | ssmNone
  | ssmVertical
  | ssmHorizontal
deriving DecidableEq, Repr

/-- Enumerators of `enum WindingRule`. -/
inductive WindingRule where
  | wrOddEven
  | wrNonZero
deriving DecidableEq, Repr

/-- Enumerators of `enum TriangleCulling`. -/
inductive TriangleCulling where
  | tcNegative
  | tcNone
  | tcPositive
deriving DecidableEq, Repr

/-- Object of `class GraphicsEndFill`: only the inherited `mRefCount`. -/
structure GraphicsEndFill where
  mRefCount : Int
deriving DecidableEq, Repr

/-- Object of `class GraphicsSolidFill`. -/
structure GraphicsSolidFill where
  mRefCount : Int
  alpha : float
  rgb : Int
deriving DecidableEq, Repr

/-- Object of `class GraphicsGradientFill`. -/
structure GraphicsGradientFill where
  mRefCount : Int
  mStops : List GradStop
  focalPointRatio : double
  matrix : Matrix
  interpolationMethod : InterpolationMethod
  spreadMethod : SpreadMethod
  isLinear : Bool
deriving DecidableEq, Repr

/-- Object of `class GraphicsBitmapFill`; `bitmapData` is the address of a
`Surface` (0 is the null pointer), surfaces themselves are not embedded. -/
structure GraphicsBitmapFill where
  mRefCount : Int
  bitmapData : Nat
  matrix : Matrix
  «repeat» : Bool
  smooth : Bool
deriving DecidableEq, Repr

/-- An object reached through an `IGraphicsFill *`: one of the four fill classes
derived from `IGraphicsFill`. -/
inductive IGraphicsFill where
  | EndFill (o : GraphicsEndFill)
  | SolidFill (o : GraphicsSolidFill)
  | GradientFill (o : GraphicsGradientFill)
  | BitmapFill (o : GraphicsBitmapFill)
deriving DecidableEq, Repr

/-- Object of `class GraphicsStroke`. -/
structure GraphicsStroke where
  mRefCount : Int
  caps : StrokeCaps
  fill : Option IGraphicsFill
  joints : StrokeJoints
  miterLimit : double
  pixelHinting : Bool
  scaleMode : StrokeScaleMode
  thickness : double
deriving DecidableEq, Repr

/-- An object reached through an `IGraphicsStroke *`. -/
inductive IGraphicsStroke where
  | Stroke (o : GraphicsStroke)
deriving DecidableEq, Repr

/-- Enumerators of `enum PathCommand` (lines 197-209). -/
inductive PathCommand where
  | pcNoOp
  | pcMoveTo
  | pcLineTo
  | pcCurveTo
  | pcWideMoveTo
  | pcWideLineTo
  | pcCloseDirection
deriving DecidableEq, Repr

/-- Integer value the header assigns to each path command. -/
def PathCommand.val : PathCommand → Nat
  | .pcNoOp => 0
  | .pcMoveTo => 1
  | .pcLineTo => 2
  | .pcCurveTo => 3
  | .pcWideMoveTo => 4
  | .pcWideLineTo => 5
  | .pcCloseDirection => 6

/-- Object of `class GraphicsPath`; `command` holds `unsigned char` tags. -/
structure GraphicsPath where
  mRefCount : Int
  command : List Nat
  data : List float
  winding : WindingRule
deriving DecidableEq, Repr

/-- Object of `class GraphicsTrianglePath`. -/
structure GraphicsTrianglePath where
  mRefCount : Int
  culling : TriangleCulling
  indices : List Int
  uvtData : List double
  uvtVertices : List double
  mUVTDim : Int
deriving DecidableEq, Repr

/-- An object reached through an `IGraphicsPath *`. -/
inductive IGraphicsPath where
  | Path (o : GraphicsPath)
  | TrianglePath (o : GraphicsTrianglePath)
deriving DecidableEq, Repr

/-- An object reached through an `IGraphicsData *`: its dynamic class is one of
the seven concrete classes, grouped by the interface class they derive from. -/
inductive IGraphicsData where
  | Fill (f : IGraphicsFill)
  | Stroke (s : IGraphicsStroke)
  | Path (p : IGraphicsPath)
deriving DecidableEq, Repr

/-! ### Virtual members of `IGraphicsData`

Each function selects, for the dynamic class of the object, the override written
in the header for that class; where the class (and its interface class) has
none, the body of `IGraphicsData` applies. -/

/-- Virtual `GetType()`: overridden at lines 107, 115, 135 and 153 only; every
other class runs the base body `return gdtUnknown;` (line 67). -/
def IGraphicsData.GetType : IGraphicsData → GraphicsDataType
  | .Fill (.EndFill _) => .gdtEndFill
  | .Fill (.SolidFill _) => .gdtSolidFill
  | .Fill (.GradientFill _) => .gdtGradientFill
  | .Fill (.BitmapFill _) => .gdtBitmapFill
  | .Stroke (.Stroke _) => .gdtUnknown
  | .Path (.Path _) => .gdtUnknown
  | .Path (.TrianglePath _) => .gdtUnknown

/-- Virtual `AsIFill()`: `return this;` in `IGraphicsFill` (line 97), else 0. -/
def IGraphicsData.AsIFill : IGraphicsData → Option IGraphicsFill
  | .Fill f => some f
  | .Stroke _ => none
  | .Path _ => none

/-- Virtual `AsIPath()`: `return this;` in `IGraphicsPath` (line 194), else 0. -/
def IGraphicsData.AsIPath : IGraphicsData → Option IGraphicsPath
  | .Fill _ => none
  | .Stroke _ => none
  | .Path p => some p

/-- Virtual `AsIStroke()`: `return this;` in `IGraphicsStroke` (line 165), else 0. -/
def IGraphicsData.AsIStroke : IGraphicsData → Option IGraphicsStroke
  | .Fill _ => none
  | .Stroke s => some s
  | .Path _ => none

/-- Virtual `AsEndFill()`: `return this;` in `GraphicsEndFill` (line 108); the
base body returns 0 (line 74). -/
def IGraphicsData.AsEndFill : IGraphicsData → Option GraphicsEndFill
  | .Fill (.EndFill o) => some o
  | .Fill (.SolidFill _) => none
  | .Fill (.GradientFill _) => none
  | .Fill (.BitmapFill _) => none
  | .Stroke (.Stroke _) => none
  | .Path (.Path _) => none
  | .Path (.TrianglePath _) => none

/-- Virtual `AsSolidFill()`: `return this;` in `GraphicsSolidFill` (line 116);
the base body returns 0 (line 75). -/
def IGraphicsData.AsSolidFill : IGraphicsData → Option GraphicsSolidFill
  | .Fill (.EndFill _) => none
  | .Fill (.SolidFill o) => some o
  | .Fill (.GradientFill _) => none
  | .Fill (.BitmapFill _) => none
  | .Stroke (.Stroke _) => none
  | .Path (.Path _) => none
  | .Path (.TrianglePath _) => none

/-- Virtual `AsGradientFill()`: `return this;` in `GraphicsGradientFill`
(line 136); the base body returns 0 (line 76). -/
def IGraphicsData.AsGradientFill : IGraphicsData → Option GraphicsGradientFill
  | .Fill (.EndFill _) => none
  | .Fill (.SolidFill _) => none
  | .Fill (.GradientFill o) => some o
  | .Fill (.BitmapFill _) => none
  | .Stroke (.Stroke _) => none
  | .Path (.Path _) => none
  | .Path (.TrianglePath _) => none

/-- Virtual `AsBitmapFill()`: `return this;` in `GraphicsBitmapFill` (line 154);
the base body returns 0 (line 77). -/
def IGraphicsData.AsBitmapFill : IGraphicsData → Option GraphicsBitmapFill
  | .Fill (.EndFill _) => none
  | .Fill (.SolidFill _) => none
  | .Fill (.GradientFill _) => none
  | .Fill (.BitmapFill o) => some o
  | .Stroke (.Stroke _) => none
  | .Path (.Path _) => none
  | .Path (.TrianglePath _) => none

/-- Virtual `AsStroke()`: `return this;` in `GraphicsStroke` (line 177); the
base body returns 0 (line 79). -/
def IGraphicsData.AsStroke : IGraphicsData → Option GraphicsStroke
  | .Fill (.EndFill _) => none
  | .Fill (.SolidFill _) => none
  | .Fill (.GradientFill _) => none
  | .Fill (.BitmapFill _) => none
  | .Stroke (.Stroke o) => some o
  | .Path (.Path _) => none
  | .Path (.TrianglePath _) => none

/-- Virtual `AsPath()`: `return this;` in `GraphicsPath` (line 217); the base
body returns 0 (line 81). -/
def IGraphicsData.AsPath : IGraphicsData → Option GraphicsPath
  | .Fill (.EndFill _) => none
  | .Fill (.SolidFill _) => none
  | .Fill (.GradientFill _) => none
  | .Fill (.BitmapFill _) => none
  | .Stroke (.Stroke _) => none
  | .Path (.Path o) => some o
  | .Path (.TrianglePath _) => none

/-- Virtual `AsTrianglePath()`: no class overrides it (`GraphicsTrianglePath`,
lines 234-242, declares data members only), so the base body `return 0;`
(line 82) runs for every object. -/
def IGraphicsData.AsTrianglePath : IGraphicsData → Option GraphicsTrianglePath
  | .Fill (.EndFill _) => none
  | .Fill (.SolidFill _) => none
  | .Fill (.GradientFill _) => none
  | .Fill (.BitmapFill _) => none
  | .Stroke (.Stroke _) => none
  | .Path (.Path _) => none
  | .Path (.TrianglePath _) => none

/-- Number of the seven concrete downcasts (AsEndFill, AsSolidFill,
AsGradientFill, AsBitmapFill, AsStroke, AsPath, AsTrianglePath) that return a
non-null pointer for the object. -/
def IGraphicsData.nonNullDowncasts (o : IGraphicsData) : Nat :=
  (if o.AsEndFill.isSome then 1 else 0) + (if o.AsSolidFill.isSome then 1 else 0) +
  (if o.AsGradientFill.isSome then 1 else 0) + (if o.AsBitmapFill.isSome then 1 else 0) +
  (if o.AsStroke.isSome then 1 else 0) + (if o.AsPath.isSome then 1 else 0) +
  (if o.AsTrianglePath.isSome then 1 else 0)

/-- Member `bool IsClear() { return false; }` of `GraphicsStroke` (line 179). -/
def GraphicsStroke.IsClear (_self : GraphicsStroke) : Bool := false

/-! ### Reference counting (lines 61-65) -/

/-- The `mRefCount` member of the object. -/
def IGraphicsData.mRefCount : IGraphicsData → Int
  | .Fill (.EndFill o) => o.mRefCount
  | .Fill (.SolidFill o) => o.mRefCount
  | .Fill (.GradientFill o) => o.mRefCount
  | .Fill (.BitmapFill o) => o.mRefCount
  | .Stroke (.Stroke o) => o.mRefCount
  | .Path (.Path o) => o.mRefCount
  | .Path (.TrianglePath o) => o.mRefCount

/-- The object after the assignment `mRefCount = c`. -/
def IGraphicsData.setRefCount (c : Int) : IGraphicsData → IGraphicsData
  | .Fill (.EndFill o) => .Fill (.EndFill { o with mRefCount := c })
  | .Fill (.SolidFill o) => .Fill (.SolidFill { o with mRefCount := c })
  | .Fill (.GradientFill o) => .Fill (.GradientFill { o with mRefCount := c })
  | .Fill (.BitmapFill o) => .Fill (.BitmapFill { o with mRefCount := c })
  | .Stroke (.Stroke o) => .Stroke (.Stroke { o with mRefCount := c })
  | .Path (.Path o) => .Path (.Path { o with mRefCount := c })
  | .Path (.TrianglePath o) => .Path (.TrianglePath { o with mRefCount := c })

/-- The object is as its constructor leaves it: `IGraphicsData() : mRefCount(0)`. -/
def IGraphicsData.isFresh (o : IGraphicsData) : Prop := o.mRefCount = 0

instance (o : IGraphicsData) : Decidable o.isFresh := by
  unfold IGraphicsData.isFresh; exact inferInstance

/-- Member `IncRef() { mRefCount++; return this; }`: the result is the object
the call returns, which is the receiver after the increment. -/
def IGraphicsData.IncRef (self : IGraphicsData) : IGraphicsData :=
  self.setRefCount (wrap32 (self.mRefCount + 1))

/-- Member `DecRef() { mRefCount--; if (mRefCount<=0) delete this; }`: `none`
when the call destroys the object, else the object after the decrement. -/
def IGraphicsData.DecRef (self : IGraphicsData) : Option IGraphicsData :=
  let c := wrap32 (self.mRefCount - 1)
  if c ≤ 0 then none else some (self.setRefCount c)

/-- The receiver after `n` successive `IncRef()` calls. -/
def IGraphicsData.IncRefs : Nat → IGraphicsData → IGraphicsData
  | 0, o => o
  | n + 1, o => IGraphicsData.IncRefs n o.IncRef

/-- The receiver after `n` successive `DecRef()` calls: `none` once one of them
has destroyed it (no call can follow a destruction). -/
def IGraphicsData.DecRefs : Nat → IGraphicsData → Option IGraphicsData
  | 0, o => some o
  | n + 1, o => o.DecRef.bind (IGraphicsData.DecRefs n)

/-! ### `GraphicsPath` members (lines 214-229) -/

/-- Constructor `GraphicsPath() : winding(wrOddEven)`, run after the base
constructor `IGraphicsData() : mRefCount(0)`; both vectors start empty. -/
def GraphicsPath.new : GraphicsPath :=
  { mRefCount := 0, command := [], data := [], winding := .wrOddEven }

/-- Modelled from the spec: the body of `GraphicsPath::moveTo(float x, float y)`
(declared at line 226, defined in no file of this tree). It appends the tag
pcMoveTo and its 2 operands. -/
def GraphicsPath.moveTo (p : GraphicsPath) (x y : float) : GraphicsPath :=
  { p with command := p.command ++ [PathCommand.pcMoveTo.val], data := p.data ++ [x, y] }

/-- Modelled from the spec: the body of `GraphicsPath::lineTo(float x, float y)`
(declared at line 225, defined in no file of this tree). It appends the tag
pcLineTo and its 2 operands. -/
def GraphicsPath.lineTo (p : GraphicsPath) (x y : float) : GraphicsPath :=
  { p with command := p.command ++ [PathCommand.pcLineTo.val], data := p.data ++ [x, y] }

/-- Modelled from the spec: the body of `GraphicsPath::curveTo` (declared at
line 224, defined in no file of this tree). It appends the tag pcCurveTo and
its 6 operands. The spec fixes the number of operands only: the four declared
arguments are stored in the order of the declaration, the two operands beyond
them as zero. -/
def GraphicsPath.curveTo (p : GraphicsPath) (controlX controlY anchorX anchorY : float) :
    GraphicsPath :=
  { p with
    command := p.command ++ [PathCommand.pcCurveTo.val],
    data := p.data ++ [controlX, controlY, anchorX, anchorY, float.zero, float.zero] }

/-- Modelled from the spec: the body of `GraphicsPath::wideLineTo(float x, float y)`
(declared at line 227, defined in no file of this tree). It appends the tag
pcWideLineTo and its 4 operands. The spec fixes the number of operands only:
the two declared arguments are stored in the order of the declaration, the two
operands beyond them as zero. -/
def GraphicsPath.wideLineTo (p : GraphicsPath) (x y : float) : GraphicsPath :=
  { p with
    command := p.command ++ [PathCommand.pcWideLineTo.val],
    data := p.data ++ [x, y, float.zero, float.zero] }

/-- Modelled from the spec: the body of `GraphicsPath::wideMoveTo(float x, float y)`
(declared at line 228, defined in no file of this tree). The spec gives no
operand count for this tag; it is taken to mirror wideLineTo: the tag
pcWideMoveTo and 4 operands, stored the same way. -/
def GraphicsPath.wideMoveTo (p : GraphicsPath) (x y : float) : GraphicsPath :=
  { p with
    command := p.command ++ [PathCommand.pcWideMoveTo.val],
    data := p.data ++ [x, y, float.zero, float.zero] }

/-- One call of a drawing member of `GraphicsPath`, with its arguments. -/
inductive PathCall where
  | moveTo (x y : float)
  | lineTo (x y : float)
  | curveTo (controlX controlY anchorX anchorY : float)
  | wideMoveTo (x y : float)
  | wideLineTo (x y : float)
deriving DecidableEq, Repr

/-- The path after the call. -/
def GraphicsPath.call (p : GraphicsPath) : PathCall → GraphicsPath
  | .moveTo x y => p.moveTo x y
  | .lineTo x y => p.lineTo x y
  | .curveTo cx cy ax ay => p.curveTo cx cy ax ay
  | .wideMoveTo x y => p.wideMoveTo x y
  | .wideLineTo x y => p.wideLineTo x y

/-- The path after the calls, made in list order. -/
def GraphicsPath.calls (p : GraphicsPath) (cs : List PathCall) : GraphicsPath :=
  cs.foldl GraphicsPath.call p

/-- The tag that the call appends to the command stream. -/
def PathCall.tag : PathCall → PathCommand
  | .moveTo _ _ => .pcMoveTo
  | .lineTo _ _ => .pcLineTo
  | .curveTo _ _ _ _ => .pcCurveTo
  | .wideMoveTo _ _ => .pcWideMoveTo
  | .wideLineTo _ _ => .pcWideLineTo

/-- Fixed operand count of a stored tag, as the spec gives it: 2 floats per
moveTo and lineTo, 4 per wideLineTo, 6 per curveTo (and 4 for wideMoveTo, for
which the spec gives no number). Tags the drawing members never store (no-op,
closeDirection, bytes past the enum) have no count. -/
def operandCount (tag : Nat) : Option Nat :=
  if tag = PathCommand.pcMoveTo.val then some 2
  else if tag = PathCommand.pcLineTo.val then some 2
  else if tag = PathCommand.pcCurveTo.val then some 6
  else if tag = PathCommand.pcWideMoveTo.val then some 4
  else if tag = PathCommand.pcWideLineTo.val then some 4
  else none

/-- Sum of the operand counts of a command stream under a count table; `none`
when a tag of the stream has no count. -/
def operandSum (count : Nat → Option Nat) : List Nat → Option Nat
  | [] => some 0
  | tag :: rest =>
    match count tag, operandSum count rest with
    | some c, some s => some (c + s)
    | _, _ => none

/-! ## Render batches (lines 244-282) -/

/-- Object of `struct SolidData`. -/
structure SolidData where
  mFill : Option IGraphicsFill
  command : List Nat
  data : List float
deriving DecidableEq, Repr

/-- Constructor `SolidData(IGraphicsFill *inFill) : mFill(inFill)`. -/
def SolidData.new (inFill : Option IGraphicsFill) : SolidData :=
  { mFill := inFill, command := [], data := [] }

/-- Object of `struct LineData`. -/
structure LineData where
  mStroke : Option GraphicsStroke
  command : List Nat
  data : List float
deriving DecidableEq, Repr

/-- Constructor `LineData(GraphicsStroke *inStroke=0) : mStroke(inStroke)`. -/
def LineData.new (inStroke : Option GraphicsStroke) : LineData :=
  { mStroke := inStroke, command := [], data := [] }

/-- Object of `struct TriangleData`; `mTriangles` points to another
`TriangleData` or is null. -/
inductive TriangleData where
  | mk (mFill : Option IGraphicsFill) (mStroke : Option IGraphicsStroke)
      (mTriangles : Option TriangleData)

/-- An object reached through an `IRenderData *`: one of the three batch
structs derived from `IRenderData`. -/
inductive IRenderData where
  | Solid (o : SolidData)
  | Line (o : LineData)
  | Triangles (o : TriangleData)

/-- Virtual `AsSolid()`: `return this;` in `SolidData` (line 256); the base
body returns 0 (line 248). -/
def IRenderData.AsSolid : IRenderData → Option SolidData
  | .Solid o => some o
  | .Line _ => none
  | .Triangles _ => none

/-- Virtual `AsLine()`: `return this;` in `LineData` (line 268); the base body
returns 0 (line 249). -/
def IRenderData.AsLine : IRenderData → Option LineData
  | .Solid _ => none
  | .Line o => some o
  | .Triangles _ => none

/-- Virtual `AsTriangles()`: `return this;` in `TriangleData` (line 278); the
base body returns 0 (line 250). -/
def IRenderData.AsTriangles : IRenderData → Option TriangleData
  | .Solid _ => none
  | .Line _ => none
  | .Triangles o => some o

/-- Number of the three probes AsSolid, AsLine, AsTriangles that return a
non-null pointer for the batch. -/
def IRenderData.nonNullProbes (r : IRenderData) : Nat :=
  (if r.AsSolid.isSome then 1 else 0) + (if r.AsLine.isSome then 1 else 0) +
  (if r.AsTriangles.isSome then 1 else 0)

/-- Type `typedef QuickVec<IRenderData *> RenderData;` (line 349). -/
abbrev RenderData := List IRenderData

/-! ## The display list `Graphics` (lines 351-383)

The header declares the members of `Graphics`; none of their bodies is in this
tree. The state is embedded from the declared data members, the members are
modelled from the specification (sections 4.1 and 4.2). The conversion pass of
section 4.2 computes the closing commands of a batch from float coordinates;
it enters the model as the function `convert`, which maps the batch list built
so far and the items still to convert to the extended batch list. -/

/-- Data members of `class Graphics`; the two `IRenderCache *` members are kept
as addresses (0 is the null pointer). -/
structure Graphics where
  mSoftwareCache : Nat
  mHardwareCache : Nat
  mItems : List IGraphicsData
  mRenderData : RenderData
  mLastConvertedItem : Nat

/-- Modelled from the spec: the body of the constructor `Graphics()` (declared
at line 354): no item, no batch, nothing converted, no cache. -/
def Graphics.new : Graphics :=
  { mSoftwareCache := 0, mHardwareCache := 0, mItems := [], mRenderData := [],
    mLastConvertedItem := 0 }

/-- Modelled from the spec: the body of `Graphics::Add(IGraphicsData *inData)`
(declared at line 373): the item is appended to the flat ordered item list. -/
def Graphics.Add (g : Graphics) (inData : IGraphicsData) : Graphics :=
  { g with mItems := g.mItems ++ [inData] }

/-- Modelled from the spec: the body of `Graphics::drawGraphicsData` (declared
at line 358): the `inN` items of the array are added in order. -/
def Graphics.drawGraphicsData (g : Graphics) (graphicsData : List IGraphicsData) : Graphics :=
  graphicsData.foldl Graphics.Add g

/-- Modelled from the spec: the body of `Graphics::beginFill` (declared at
line 359): a begin-fill style item, built by the constructor
`GraphicsSolidFill(int inRGB, float inAlpha)`, is added. -/
def Graphics.beginFill (g : Graphics) (color : Nat) (alpha : float) : Graphics :=
  g.Add (.Fill (.SolidFill { mRefCount := 0, alpha := alpha, rgb := wrap32 color }))

/-- Modelled from the spec: the body of `Graphics::GetLastPath()` (declared at
line 375): the implicit current path is the last item when that is a vector
path; otherwise an empty path is added and becomes the current path. -/
def Graphics.GetLastPath (g : Graphics) : Graphics :=
  match g.mItems.getLast? with
  | some (.Path (.Path _)) => g
  | _ => g.Add (.Path (.Path GraphicsPath.new))

/-- The display list after a member of the current path (the last item) ran. -/
def Graphics.onLastPath (g : Graphics) (f : GraphicsPath → GraphicsPath) : Graphics :=
  match g.mItems.getLast? with
  | some (.Path (.Path p)) => { g with mItems := g.mItems.dropLast ++ [.Path (.Path (f p))] }
  | _ => g

/-- Modelled from the spec: the body of `Graphics::lineTo` (declared at
line 361): the call is appended to the implicit current path. -/
def Graphics.lineTo (g : Graphics) (x y : float) : Graphics :=
  g.GetLastPath.onLastPath (fun p => p.lineTo x y)

/-- Modelled from the spec: the body of `Graphics::moveTo` (declared at
line 362): the call is appended to the implicit current path. -/
def Graphics.moveTo (g : Graphics) (x y : float) : Graphics :=
  g.GetLastPath.onLastPath (fun p => p.moveTo x y)

/-- The items after the last-converted cursor: what the next conversion pass
has to process. -/
def Graphics.pendingItems (g : Graphics) : List IGraphicsData :=
  g.mItems.drop g.mLastConvertedItem

/-- Modelled from the spec: the body of `Graphics::CreateRenderData()` (declared
at line 365). When no item was appended since the last call the cached batch
list is returned; otherwise only the items from the last-converted cursor to
the end are converted, the batch list is extended, and the cursor moves to the
item count. The result is the display list after the call and the batch list
the call returns (a reference to `mRenderData`). -/
def Graphics.CreateRenderData (convert : RenderData → List IGraphicsData → RenderData)
    (g : Graphics) : Graphics × RenderData :=
  let n := g.mItems.length
  if g.mLastConvertedItem < n then
    let batches := convert g.mRenderData g.pendingItems
    ({ g with mRenderData := batches, mLastConvertedItem := n }, batches)
  else
    (g, g.mRenderData)

/-- One call of a public member of `Graphics`, with its arguments. -/
inductive GraphicsCall where
  | drawGraphicsData (graphicsData : List IGraphicsData)
  | beginFill (color : Nat) (alpha : float)
  | lineTo (x y : float)
  | moveTo (x y : float)
  | CreateRenderData

/-- The display list after the call. -/
def Graphics.call (convert : RenderData → List IGraphicsData → RenderData)
    (g : Graphics) : GraphicsCall → Graphics
  | .drawGraphicsData items => g.drawGraphicsData items
  | .beginFill color alpha => g.beginFill color alpha
  | .lineTo x y => g.lineTo x y
  | .moveTo x y => g.moveTo x y
  | .CreateRenderData => (g.CreateRenderData convert).1

/-- The display list after the calls, made in list order. -/
def Graphics.calls (convert : RenderData → List IGraphicsData → RenderData)
    (g : Graphics) (cs : List GraphicsCall) : Graphics :=
  cs.foldl (Graphics.call convert) g

/-- The display list a freshly constructed `Graphics` becomes after the calls,
made in list order: every `Graphics` object is of this form. -/
def Graphics.afterCalls (convert : RenderData → List IGraphicsData → RenderData)
    (cs : List GraphicsCall) : Graphics :=
  Graphics.calls convert Graphics.new cs

/-- A conversion pass used to run the model on concrete input: one line batch
without stroke per converted item, appended to the batch list. -/
def sampleConvert (batches : RenderData) (items : List IGraphicsData) : RenderData :=
  batches ++ items.map (fun _ => IRenderData.Line (LineData.new none))

/-- A second conversion pass, different from the first on every non-empty input:
it drops every batch. -/
def sampleConvertDrop (_batches : RenderData) (_items : List IGraphicsData) : RenderData :=
  []

/-- A drawing session: red fill, then a path of one moveTo and one lineTo. -/
def sampleSession : List GraphicsCall :=
  [.beginFill 0xFF0000 ⟨1065353216⟩, .moveTo ⟨0⟩ ⟨0⟩, .lineTo ⟨1092616192⟩ ⟨0⟩]

/-- Calls that append no item after the session above: a lineTo lands in the
current path, an empty drawGraphicsData adds nothing, CreateRenderData adds
nothing. -/
def sampleQuietCalls : List GraphicsCall :=
  [.lineTo ⟨1092616192⟩ ⟨1092616192⟩, .drawGraphicsData [], .CreateRenderData]

/-! ## Helper lemmas -/

theorem wrap32_of_isInt32 (v : Int) (h : isInt32 v) : wrap32 v = v := by
  unfold isInt32 INT_MIN INT_MAX at h
  unfold wrap32
  omega

theorem wrap32_wrap32_add (a b : Int) : wrap32 (wrap32 a + b) = wrap32 (a + b) := by
  unfold wrap32
  omega

theorem isInt32_wrap32 (v : Int) : isInt32 (wrap32 v) := by
  unfold isInt32 INT_MIN INT_MAX wrap32
  omega

theorem mRefCount_setRefCount (c : Int) (o : IGraphicsData) :
    (o.setRefCount c).mRefCount = c := by
  rcases o with (_ | _ | _ | _) | ⟨_⟩ | (_ | _) <;> rfl

theorem setRefCount_setRefCount (c d : Int) (o : IGraphicsData) :
    (o.setRefCount d).setRefCount c = o.setRefCount c := by
  rcases o with (_ | _ | _ | _) | ⟨_⟩ | (_ | _) <;> rfl

theorem setRefCount_mRefCount (o : IGraphicsData) : o.setRefCount o.mRefCount = o := by
  rcases o with (_ | _ | _ | _) | ⟨_⟩ | (_ | _) <;> rfl

theorem IncRef_setRefCount (c : Int) (o : IGraphicsData) :
    (o.setRefCount c).IncRef = o.setRefCount (wrap32 (c + 1)) := by
  simp only [IGraphicsData.IncRef, mRefCount_setRefCount, setRefCount_setRefCount]

theorem IncRefs_setRefCount (n : Nat) (c : Int) (o : IGraphicsData) (hc : isInt32 c) :
    IGraphicsData.IncRefs n (o.setRefCount c) = o.setRefCount (wrap32 (c + n)) := by
  induction n generalizing c with
  | zero => simp [IGraphicsData.IncRefs, wrap32_of_isInt32 c hc]
  | succ k ih =>
    rw [IGraphicsData.IncRefs, IncRef_setRefCount, ih _ (isInt32_wrap32 _), wrap32_wrap32_add]
    congr 2
    push_cast
    ring

theorem IncRefs_of_isInt32 (n : Nat) (o : IGraphicsData) (hc : isInt32 o.mRefCount) :
    IGraphicsData.IncRefs n o = o.setRefCount (wrap32 (o.mRefCount + n)) := by
  have h := IncRefs_setRefCount n o.mRefCount o hc
  rwa [setRefCount_mRefCount] at h

theorem DecRef_setRefCount (c : Int) (o : IGraphicsData) :
    (o.setRefCount c).DecRef =
      if wrap32 (c - 1) ≤ 0 then none else some (o.setRefCount (wrap32 (c - 1))) := by
  simp only [IGraphicsData.DecRef, mRefCount_setRefCount, setRefCount_setRefCount]

theorem DecRefs_setRefCount_alive (k : Nat) (m : Int) (o : IGraphicsData)
    (hk : (k : Int) < m) (hm : m ≤ INT_MAX) :
    IGraphicsData.DecRefs k (o.setRefCount m) = some (o.setRefCount (m - k)) := by
  induction k generalizing m with
  | zero => simp [IGraphicsData.DecRefs]
  | succ j ih =>
    have hw : wrap32 (m - 1) = m - 1 := by
      apply wrap32_of_isInt32
      unfold isInt32 INT_MIN INT_MAX
      unfold INT_MAX at hm
      push_cast at hk
      omega
    have hpos : ¬ (m - 1 ≤ 0) := by push_cast at hk; omega
    rw [IGraphicsData.DecRefs, DecRef_setRefCount, hw, if_neg hpos, Option.some_bind,
      ih (m - 1) (by push_cast at hk; omega) (by unfold INT_MAX at hm ⊢; omega)]
    congr 2
    push_cast
    ring

theorem DecRefs_setRefCount_destroy (n : Nat) (o : IGraphicsData)
    (h1 : 1 ≤ n) (hn : (n : Int) ≤ INT_MAX) :
    IGraphicsData.DecRefs n (o.setRefCount n) = none := by
  induction n with
  | zero => omega
  | succ j ih =>
    rw [IGraphicsData.DecRefs, DecRef_setRefCount]
    have hw : wrap32 (((j + 1 : Nat) : Int) - 1) = j := by
      rw [wrap32_of_isInt32]
      · push_cast; ring
      · unfold isInt32 INT_MIN INT_MAX
        unfold INT_MAX at hn
        push_cast at hn ⊢
        omega
    rw [hw]
    by_cases hj : j = 0
    · subst hj; simp
    · have hpos : ¬ ((j : Int) ≤ 0) := by omega
      rw [if_neg hpos, Option.some_bind]
      exact ih (by omega) (by unfold INT_MAX at hn ⊢; push_cast at hn; omega)

theorem operandSum_append_singleton (count : Nat → Option Nat) (l : List Nat) (t s c : Nat)
    (hl : operandSum count l = some s) (ht : count t = some c) :
    operandSum count (l ++ [t]) = some (s + c) := by
  induction l generalizing s with
  | nil =>
    simp only [operandSum] at hl
    cases hl
    simp [operandSum, ht]
  | cons a rest ih =>
    simp only [List.cons_append, operandSum] at hl ⊢
    cases ha : count a with
    | none => simp [ha] at hl
    | some ca =>
      cases hr : operandSum count rest with
      | none => simp [ha, hr] at hl
      | some sr =>
        have e := ih sr hr
        rw [ha, hr] at hl
        simp only [List.append_eq, e, Option.some.injEq] at hl ⊢
        omega

theorem operandSum_call (p : GraphicsPath) (c : PathCall)
    (h : operandSum operandCount p.command = some p.data.length) :
    operandSum operandCount (p.call c).command = some (p.call c).data.length := by
  cases c <;>
    simp only [GraphicsPath.call, GraphicsPath.moveTo, GraphicsPath.lineTo,
      GraphicsPath.curveTo, GraphicsPath.wideMoveTo, GraphicsPath.wideLineTo,
      List.length_append] <;>
    exact operandSum_append_singleton _ _ _ _ _ h rfl

theorem operandSum_calls (cs : List PathCall) (p : GraphicsPath)
    (h : operandSum operandCount p.command = some p.data.length) :
    operandSum operandCount (p.calls cs).command = some (p.calls cs).data.length := by
  induction cs generalizing p with
  | nil => exact h
  | cons c rest ih => exact ih (p.call c) (operandSum_call p c h)

/-- The last-converted cursor never passes the item count. -/
theorem Add_cursor_le (g : Graphics) (d : IGraphicsData)
    (h : g.mLastConvertedItem ≤ g.mItems.length) :
    (g.Add d).mLastConvertedItem ≤ (g.Add d).mItems.length := by
  simp only [Graphics.Add, List.length_append, List.length_singleton]
  omega

theorem drawGraphicsData_cursor_le (ds : List IGraphicsData) (g : Graphics)
    (h : g.mLastConvertedItem ≤ g.mItems.length) :
    (g.drawGraphicsData ds).mLastConvertedItem ≤ (g.drawGraphicsData ds).mItems.length := by
  induction ds generalizing g with
  | nil => exact h
  | cons d rest ih => exact ih (g.Add d) (Add_cursor_le g d h)

theorem GetLastPath_cursor_le (g : Graphics)
    (h : g.mLastConvertedItem ≤ g.mItems.length) :
    g.GetLastPath.mLastConvertedItem ≤ g.GetLastPath.mItems.length := by
  unfold Graphics.GetLastPath
  split
  · exact h
  · exact Add_cursor_le g _ h

theorem onLastPath_cursor_le (g : Graphics) (f : GraphicsPath → GraphicsPath)
    (h : g.mLastConvertedItem ≤ g.mItems.length) :
    (g.onLastPath f).mLastConvertedItem ≤ (g.onLastPath f).mItems.length := by
  unfold Graphics.onLastPath
  split
  · rename_i p hp
    have hne : g.mItems ≠ [] := by
      intro hnil
      rw [hnil] at hp
      simp at hp
    have hpos : 0 < g.mItems.length := List.length_pos.mpr hne
    simp only [List.length_append, List.length_dropLast, List.length_singleton]
    omega
  · exact h

theorem CreateRenderData_cursor_le (convert : RenderData → List IGraphicsData → RenderData)
    (g : Graphics) (h : g.mLastConvertedItem ≤ g.mItems.length) :
    (g.CreateRenderData convert).1.mLastConvertedItem ≤
      (g.CreateRenderData convert).1.mItems.length := by
  unfold Graphics.CreateRenderData
  by_cases hlt : g.mLastConvertedItem < g.mItems.length
  · simp [hlt]
  · simp only [hlt, if_false]
    exact h

theorem call_cursor_le (convert : RenderData → List IGraphicsData → RenderData)
    (g : Graphics) (c : GraphicsCall) (h : g.mLastConvertedItem ≤ g.mItems.length) :
    (g.call convert c).mLastConvertedItem ≤ (g.call convert c).mItems.length := by
  cases c with
  | drawGraphicsData items => exact drawGraphicsData_cursor_le items g h
  | beginFill color alpha => exact Add_cursor_le g _ h
  | lineTo x y => exact onLastPath_cursor_le _ _ (GetLastPath_cursor_le g h)
  | moveTo x y => exact onLastPath_cursor_le _ _ (GetLastPath_cursor_le g h)
  | CreateRenderData => exact CreateRenderData_cursor_le convert g h

theorem foldl_call_cursor_le (convert : RenderData → List IGraphicsData → RenderData)
    (cs : List GraphicsCall) (g : Graphics) (h : g.mLastConvertedItem ≤ g.mItems.length) :
    (cs.foldl (Graphics.call convert) g).mLastConvertedItem ≤
      (cs.foldl (Graphics.call convert) g).mItems.length := by
  induction cs generalizing g with
  | nil => exact h
  | cons c rest ih => exact ih (g.call convert c) (call_cursor_le convert g c h)

theorem afterCalls_cursor_le (convert : RenderData → List IGraphicsData → RenderData)
    (cs : List GraphicsCall) :
    (Graphics.afterCalls convert cs).mLastConvertedItem ≤
      (Graphics.afterCalls convert cs).mItems.length :=
  foldl_call_cursor_le convert cs Graphics.new (Nat.zero_le _)

theorem CreateRenderData_cursor_eq (convert : RenderData → List IGraphicsData → RenderData)
    (g : Graphics) (h : g.mLastConvertedItem ≤ g.mItems.length) :
    (g.CreateRenderData convert).1.mLastConvertedItem =
      (g.CreateRenderData convert).1.mItems.length := by
  unfold Graphics.CreateRenderData
  by_cases hlt : g.mLastConvertedItem < g.mItems.length
  · simp [hlt]
  · simp only [hlt, if_false]
    omega

theorem CreateRenderData_returns_member (convert : RenderData → List IGraphicsData → RenderData)
    (g : Graphics) :
    (g.CreateRenderData convert).2 = (g.CreateRenderData convert).1.mRenderData := by
  unfold Graphics.CreateRenderData
  by_cases hlt : g.mLastConvertedItem < g.mItems.length
  · simp [hlt]
  · simp [hlt]

theorem CreateRenderData_of_converted (convert : RenderData → List IGraphicsData → RenderData)
    (g : Graphics) (h : g.mLastConvertedItem = g.mItems.length) :
    g.CreateRenderData convert = (g, g.mRenderData) := by
  unfold Graphics.CreateRenderData
  simp [h]

theorem sat32_of_isInt32 (v : Int) (h : isInt32 v) : sat32 v = v := by
  unfold isInt32 INT_MIN INT_MAX at h
  unfold sat32 INT_MIN INT_MAX
  omega

theorem isInt32_sat32 (v : Int) : isInt32 (sat32 v) := by
  unfold isInt32 sat32 INT_MIN INT_MAX
  omega

theorem sat32_pos (v : Int) (h : 0 < sat32 v) : 0 < v := by
  unfold sat32 INT_MIN INT_MAX at h
  omega

theorem Add_frame (g : Graphics) (d : IGraphicsData) :
    (g.Add d).mItems.length = g.mItems.length + 1 ∧
    (g.Add d).mLastConvertedItem = g.mLastConvertedItem ∧
    (g.Add d).mRenderData = g.mRenderData := by
  simp [Graphics.Add]

theorem drawGraphicsData_frame (ds : List IGraphicsData) (g : Graphics) :
    g.mItems.length ≤ (g.drawGraphicsData ds).mItems.length ∧
    (g.drawGraphicsData ds).mLastConvertedItem = g.mLastConvertedItem ∧
    (g.drawGraphicsData ds).mRenderData = g.mRenderData := by
  induction ds generalizing g with
  | nil => exact ⟨le_refl _, rfl, rfl⟩
  | cons d rest ih =>
    obtain ⟨h1, h2, h3⟩ := ih (g.Add d)
    obtain ⟨a1, a2, a3⟩ := Add_frame g d
    refine ⟨?_, ?_, ?_⟩
    · show g.mItems.length ≤ ((g.Add d).drawGraphicsData rest).mItems.length
      omega
    · show ((g.Add d).drawGraphicsData rest).mLastConvertedItem = g.mLastConvertedItem
      rw [h2, a2]
    · show ((g.Add d).drawGraphicsData rest).mRenderData = g.mRenderData
      rw [h3, a3]

theorem GetLastPath_frame (g : Graphics) :
    g.mItems.length ≤ g.GetLastPath.mItems.length ∧
    g.GetLastPath.mLastConvertedItem = g.mLastConvertedItem ∧
    g.GetLastPath.mRenderData = g.mRenderData := by
  unfold Graphics.GetLastPath
  split
  · exact ⟨le_refl _, rfl, rfl⟩
  · obtain ⟨a1, a2, a3⟩ := Add_frame g (.Path (.Path GraphicsPath.new))
    exact ⟨by omega, a2, a3⟩

theorem onLastPath_frame (g : Graphics) (f : GraphicsPath → GraphicsPath) :
    (g.onLastPath f).mItems.length = g.mItems.length ∧
    (g.onLastPath f).mLastConvertedItem = g.mLastConvertedItem ∧
    (g.onLastPath f).mRenderData = g.mRenderData := by
  unfold Graphics.onLastPath
  split
  · rename_i p hp
    have hne : g.mItems ≠ [] := by
      intro hnil
      rw [hnil] at hp
      simp at hp
    have hpos : 0 < g.mItems.length := List.length_pos.mpr hne
    refine ⟨?_, rfl, rfl⟩
    simp only [List.length_append, List.length_dropLast, List.length_singleton]
    omega
  · exact ⟨rfl, rfl, rfl⟩

theorem CreateRenderData_items (convert : RenderData → List IGraphicsData → RenderData)
    (g : Graphics) : (g.CreateRenderData convert).1.mItems = g.mItems := by
  unfold Graphics.CreateRenderData
  by_cases hlt : g.mLastConvertedItem < g.mItems.length
  · simp [hlt]
  · simp [hlt]

/-- A call never removes an item; on a display list whose items are all
converted, a call that appends no item leaves the cursor and the batch list
as they were. -/
theorem call_frame (convert : RenderData → List IGraphicsData → RenderData)
    (g : Graphics) (c : GraphicsCall) :
    g.mItems.length ≤ (g.call convert c).mItems.length ∧
    (g.mLastConvertedItem = g.mItems.length →
      (g.call convert c).mLastConvertedItem = g.mLastConvertedItem ∧
      (g.call convert c).mRenderData = g.mRenderData) := by
  cases c with
  | drawGraphicsData items =>
    obtain ⟨h1, h2, h3⟩ := drawGraphicsData_frame items g
    exact ⟨h1, fun _ => ⟨h2, h3⟩⟩
  | beginFill color alpha =>
    obtain ⟨a1, a2, a3⟩ := Add_frame g
      (.Fill (.SolidFill { mRefCount := 0, alpha := alpha, rgb := wrap32 color }))
    exact ⟨by show g.mItems.length ≤ (g.Add _).mItems.length; omega, fun _ => ⟨a2, a3⟩⟩
  | lineTo x y =>
    obtain ⟨h1, h2, h3⟩ := GetLastPath_frame g
    obtain ⟨k1, k2, k3⟩ := onLastPath_frame g.GetLastPath (fun p => p.lineTo x y)
    refine ⟨?_, fun _ => ⟨?_, ?_⟩⟩
    · show g.mItems.length ≤ (g.GetLastPath.onLastPath _).mItems.length
      omega
    · show (g.GetLastPath.onLastPath _).mLastConvertedItem = g.mLastConvertedItem
      rw [k2, h2]
    · show (g.GetLastPath.onLastPath _).mRenderData = g.mRenderData
      rw [k3, h3]
  | moveTo x y =>
    obtain ⟨h1, h2, h3⟩ := GetLastPath_frame g
    obtain ⟨k1, k2, k3⟩ := onLastPath_frame g.GetLastPath (fun p => p.moveTo x y)
    refine ⟨?_, fun _ => ⟨?_, ?_⟩⟩
    · show g.mItems.length ≤ (g.GetLastPath.onLastPath _).mItems.length
      omega
    · show (g.GetLastPath.onLastPath _).mLastConvertedItem = g.mLastConvertedItem
      rw [k2, h2]
    · show (g.GetLastPath.onLastPath _).mRenderData = g.mRenderData
      rw [k3, h3]
  | CreateRenderData =>
    refine ⟨?_, fun hcur => ?_⟩
    · show g.mItems.length ≤ (g.CreateRenderData convert).1.mItems.length
      rw [CreateRenderData_items]
    · show (g.CreateRenderData convert).1.mLastConvertedItem = g.mLastConvertedItem ∧
        (g.CreateRenderData convert).1.mRenderData = g.mRenderData
      rw [CreateRenderData_of_converted convert g hcur]
      exact ⟨rfl, rfl⟩

theorem calls_length_le (convert : RenderData → List IGraphicsData → RenderData)
    (cs : List GraphicsCall) (g : Graphics) :
    g.mItems.length ≤ (Graphics.calls convert g cs).mItems.length := by
  induction cs generalizing g with
  | nil => exact le_refl _
  | cons c rest ih =>
    have h1 := (call_frame convert g c).1
    have h2 := ih (g.call convert c)
    show g.mItems.length ≤ (Graphics.calls convert (g.call convert c) rest).mItems.length
    omega

/-- Calls that append no item to a display list whose items are all converted
leave the cursor and the batch list as they were. -/
theorem calls_quiet_frame (convert : RenderData → List IGraphicsData → RenderData)
    (cs : List GraphicsCall) (g : Graphics)
    (hcur : g.mLastConvertedItem = g.mItems.length)
    (hlen : (Graphics.calls convert g cs).mItems.length = g.mItems.length) :
    (Graphics.calls convert g cs).mLastConvertedItem = g.mLastConvertedItem ∧
    (Graphics.calls convert g cs).mRenderData = g.mRenderData := by
  induction cs generalizing g with
  | nil => exact ⟨rfl, rfl⟩
  | cons c rest ih =>
    have hstep := call_frame convert g c
    have hrest := calls_length_le convert rest (g.call convert c)
    have hlen2 : (Graphics.calls convert (g.call convert c) rest).mItems.length
        = g.mItems.length := hlen
    have hsame : (g.call convert c).mItems.length = g.mItems.length := by omega
    obtain ⟨c1, c2⟩ := hstep.2 hcur
    have hcur2 : (g.call convert c).mLastConvertedItem = (g.call convert c).mItems.length := by
      rw [c1, hcur, hsame]
    obtain ⟨i1, i2⟩ := ih (g.call convert c) hcur2 (by rw [hlen2, hsame])
    exact ⟨by show (Graphics.calls convert (g.call convert c) rest).mLastConvertedItem = _
              rw [i1, c1],
           by show (Graphics.calls convert (g.call convert c) rest).mRenderData = _
              rw [i2, c2]⟩

/-! ## Checked properties -/

/-- C1: the four pixel layouts are exactly the four combinations of the two flag
bits. For each of pfXRGB, pfARGB, pfXBGR, pfABGR the test `(f & pfHasAlpha) != 0`
holds exactly for pfARGB and pfABGR, the test `(f & pfBGROrder) != 0` holds
exactly for pfXBGR and pfABGR, pfHasAlpha is 0x01 (bit 0), pfBGROrder is 0x02
(bit 1), and every value 0..3 is the value of exactly one of the four layouts. -/
theorem pixelFormat_flag_combinations :
    PixelFormat.pfHasAlpha.val = 0x01 ∧ PixelFormat.pfBGROrder.val = 0x02 ∧
    (∀ i : Fin PixelFormat.layouts.length,
      let f := PixelFormat.layouts.get i
      (f.hasFlag .pfHasAlpha = true ↔ (f = .pfARGB ∨ f = .pfABGR)) ∧
      (f.hasFlag .pfBGROrder = true ↔ (f = .pfXBGR ∨ f = .pfABGR))) ∧
    (∀ v : Fin 4, ∃! f : PixelFormat, f ∈ PixelFormat.layouts ∧ f.val = v.val) := by
  refine ⟨rfl, rfl, by decide, ?_⟩
  intro v
  fin_cases v
  · exact ⟨.pfXRGB, by decide, by intro f hf; cases f <;> simp_all [PixelFormat.layouts, PixelFormat.val]⟩
  · exact ⟨.pfARGB, by decide, by intro f hf; cases f <;> simp_all [PixelFormat.layouts, PixelFormat.val]⟩
  · exact ⟨.pfXBGR, by decide, by intro f hf; cases f <;> simp_all [PixelFormat.layouts, PixelFormat.val]⟩
  · exact ⟨.pfABGR, by decide, by intro f hf; cases f <;> simp_all [PixelFormat.layouts, PixelFormat.val]⟩

/-- C2: for every Rect whose sums x+w and y+h fit a 32-bit int, x1() is x+w and
y1() is y+h; a Rect built by the two-argument constructor Rect(inW,inH) has
x = y = 0, so its x1() is inW and its y1() is inH. -/
theorem rect_x1_y1 (r : Rect) (inW inH : Int)
    (hx : isInt32 (r.x + r.w)) (hy : isInt32 (r.y + r.h))
    (hW : isInt32 inW) (hH : isInt32 inH) :
    r.x1 = r.x + r.w ∧ r.y1 = r.y + r.h ∧
    (Rect.new2 inW inH).x = 0 ∧ (Rect.new2 inW inH).y = 0 ∧
    (Rect.new2 inW inH).x1 = inW ∧ (Rect.new2 inW inH).y1 = inH := by
  refine ⟨wrap32_of_isInt32 _ hx, wrap32_of_isInt32 _ hy, rfl, rfl, ?_, ?_⟩
  · simp only [Rect.x1, Rect.new2, zero_add]
    exact wrap32_of_isInt32 _ hW
  · simp only [Rect.y1, Rect.new2, zero_add]
    exact wrap32_of_isInt32 _ hH

/-- Witness of C2 at the rectangle (3, 4, 10, 20) and the call Rect(640, 480). -/
theorem rect_x1_y1_witness :
    (Rect.new4 3 4 10 20).x1 = 13 ∧ (Rect.new4 3 4 10 20).y1 = 24 ∧
    (Rect.new2 640 480).x1 = 640 ∧ (Rect.new2 640 480).y1 = 480 := by
  have h := rect_x1_y1 (Rect.new4 3 4 10 20) 640 480
    (by decide) (by decide) (by decide) (by decide)
  exact ⟨h.1, h.2.1, h.2.2.2.2.1, h.2.2.2.2.2⟩

/-- C3: CreateRenderData is idempotent until mutated. For every Graphics object
(a fresh object after any sequence of calls of its public members), two
CreateRenderData calls with no item appended in between (back to back, or with
calls in between that append none) return the same batch list. After the
first call the last-converted cursor equals the item count and no item is
pending; the second call converts no item: whatever conversion pass it is
given, it hands back the list of the first call and leaves the object
untouched. -/
theorem createRenderData_idempotent
    (convert convert2 : RenderData → List IGraphicsData → RenderData)
    (cs mid : List GraphicsCall)
    (hmid : (Graphics.calls convert2
        ((Graphics.afterCalls convert cs).CreateRenderData convert).1 mid).mItems.length
      = ((Graphics.afterCalls convert cs).CreateRenderData convert).1.mItems.length) :
    let g := Graphics.afterCalls convert cs
    let first := g.CreateRenderData convert
    let between := Graphics.calls convert2 first.1 mid
    let second := between.CreateRenderData convert2
    second.2 = first.2 ∧
    first.1.mLastConvertedItem = first.1.mItems.length ∧
    first.1.pendingItems = [] ∧
    between.pendingItems = [] ∧
    second = (between, first.2) ∧
    first.1.CreateRenderData convert2 = (first.1, first.2) := by
  intro g first between second
  have hcur : first.1.mLastConvertedItem = first.1.mItems.length :=
    CreateRenderData_cursor_eq convert g (afterCalls_cursor_le convert cs)
  have hret : first.2 = first.1.mRenderData := CreateRenderData_returns_member convert g
  obtain ⟨q1, q2⟩ := calls_quiet_frame convert2 mid first.1 hcur hmid
  have hcurB : between.mLastConvertedItem = between.mItems.length := by
    show (Graphics.calls convert2 first.1 mid).mLastConvertedItem
      = (Graphics.calls convert2 first.1 mid).mItems.length
    rw [q1, hcur, hmid]
  have hsecond : second = (between, first.2) := by
    show between.CreateRenderData convert2 = (between, first.2)
    rw [CreateRenderData_of_converted convert2 between hcurB, hret]
    exact congrArg (Prod.mk between) q2
  refine ⟨?_, hcur, ?_, ?_, hsecond, ?_⟩
  · rw [hsecond]
  · simp [Graphics.pendingItems, hcur]
  · simp [Graphics.pendingItems, hcurB]
  · rw [CreateRenderData_of_converted convert2 first.1 hcur, hret]

/-- Witness of C3 on the sample session: after the first CreateRenderData a
lineTo into the current path, an empty drawGraphicsData and a CreateRenderData
append no item, and a further CreateRenderData with a pass that would drop
every batch still returns the two batches of the first call. -/
theorem createRenderData_idempotent_witness :
    (Graphics.calls sampleConvertDrop
        ((Graphics.afterCalls sampleConvert sampleSession).CreateRenderData sampleConvert).1
        sampleQuietCalls).mItems.length
      = ((Graphics.afterCalls sampleConvert sampleSession).CreateRenderData
          sampleConvert).1.mItems.length ∧
    ((Graphics.afterCalls sampleConvert sampleSession).CreateRenderData sampleConvert).2.length
      = 2 ∧
    ((Graphics.calls sampleConvertDrop
        ((Graphics.afterCalls sampleConvert sampleSession).CreateRenderData sampleConvert).1
        sampleQuietCalls).CreateRenderData sampleConvertDrop).2
      = ((Graphics.afterCalls sampleConvert sampleSession).CreateRenderData sampleConvert).2 :=
  ⟨by decide, by decide,
    (createRenderData_idempotent sampleConvert sampleConvertDrop sampleSession
      sampleQuietCalls (by decide)).1⟩

/-- C4: Rect::Intersect is commutative and idempotent. For all Rects A and B,
A.Intersect(B) equals B.Intersect(A) field by field; for every Rect R (four
int fields), R.Intersect(R) equals R; and for any two Rects whose areas are
disjoint, the result has w <= 0 or h <= 0. -/
theorem rect_intersect_laws (a b r : Rect) (hr : r.WF) :
    a.Intersect b = b.Intersect a ∧
    ((a.Intersect b).x = (b.Intersect a).x ∧ (a.Intersect b).y = (b.Intersect a).y ∧
      (a.Intersect b).w = (b.Intersect a).w ∧ (a.Intersect b).h = (b.Intersect a).h) ∧
    r.Intersect r = r ∧
    (a.Disjoint b → (a.Intersect b).w ≤ 0 ∨ (a.Intersect b).h ≤ 0) := by
  have hcomm : a.Intersect b = b.Intersect a := by
    simp only [Rect.Intersect, max_comm a.x b.x, max_comm a.y b.y,
      min_comm (a.x + a.w) (b.x + b.w), min_comm (a.y + a.h) (b.y + b.h)]
  refine ⟨hcomm, ?_, ?_, ?_⟩
  · rw [hcomm]
    exact ⟨rfl, rfl, rfl, rfl⟩
  · obtain ⟨_, _, hw, hh⟩ := hr
    have e1 : sat32 (r.x + r.w - r.x) = r.w := by
      rw [add_sub_cancel_left]
      exact sat32_of_isInt32 _ hw
    have e2 : sat32 (r.y + r.h - r.y) = r.h := by
      rw [add_sub_cancel_left]
      exact sat32_of_isInt32 _ hh
    simp only [Rect.Intersect, Rect.new4, max_self, min_self, e1, e2]
  · intro hdis
    by_contra hcon
    simp only [Rect.Intersect, Rect.new4, not_or, not_le] at hcon
    have hw := sat32_pos _ hcon.1
    have hh := sat32_pos _ hcon.2
    apply hdis (max a.x b.x) (max a.y b.y)
    simp only [Rect.Contains]
    omega

/-- Witness of C4 at A = (0,0,10,10), B = (20,0,10,10), whose areas are
disjoint, and R = (1,2,3,4): the intersection of A and B is (20,0,-10,10). -/
theorem rect_intersect_laws_witness :
    (Rect.new4 1 2 3 4).WF ∧
    (Rect.new4 0 0 10 10).Disjoint (Rect.new4 20 0 10 10) ∧
    (Rect.new4 0 0 10 10).Intersect (Rect.new4 20 0 10 10) = Rect.new4 20 0 (-10) 10 ∧
    (Rect.new4 0 0 10 10).Intersect (Rect.new4 20 0 10 10)
      = (Rect.new4 20 0 10 10).Intersect (Rect.new4 0 0 10 10) ∧
    (Rect.new4 1 2 3 4).Intersect (Rect.new4 1 2 3 4) = Rect.new4 1 2 3 4 ∧
    (((Rect.new4 0 0 10 10).Intersect (Rect.new4 20 0 10 10)).w ≤ 0 ∨
      ((Rect.new4 0 0 10 10).Intersect (Rect.new4 20 0 10 10)).h ≤ 0) := by
  have hdis : (Rect.new4 0 0 10 10).Disjoint (Rect.new4 20 0 10 10) := by
    intro px py hc
    simp only [Rect.Contains, Rect.new4] at hc
    omega
  have h := rect_intersect_laws (Rect.new4 0 0 10 10) (Rect.new4 20 0 10 10)
    (Rect.new4 1 2 3 4) (by decide)
  exact ⟨by decide, hdis, by decide, h.1, h.2.2.1, h.2.2.2 hdis⟩

/-- C5: operand-count invariant of a vector path. For every GraphicsPath
obtained from a freshly constructed path (empty command and data streams) by
any finite sequence of moveTo, lineTo, curveTo, wideMoveTo and wideLineTo
calls, the length of the data stream equals the sum over the command stream of
the fixed operand count of each tag, with 2 floats per moveTo and lineTo, 4 per
wideLineTo and 6 per curveTo; each call appends exactly one command tag (the
tag of the call) and as many operands as the count of that tag. -/
theorem path_operand_count_invariant (cs : List PathCall) :
    GraphicsPath.new.command = [] ∧ GraphicsPath.new.data = [] ∧
    operandCount PathCommand.pcMoveTo.val = some 2 ∧
    operandCount PathCommand.pcLineTo.val = some 2 ∧
    operandCount PathCommand.pcWideLineTo.val = some 4 ∧
    operandCount PathCommand.pcCurveTo.val = some 6 ∧
    operandSum operandCount (GraphicsPath.new.calls cs).command
      = some (GraphicsPath.new.calls cs).data.length ∧
    (∀ (p : GraphicsPath) (c : PathCall),
      (p.call c).command = p.command ++ [c.tag.val] ∧
      operandCount c.tag.val = some ((p.call c).data.length - p.data.length) ∧
      p.data <+: (p.call c).data) := by
  refine ⟨rfl, rfl, rfl, rfl, rfl, rfl, operandSum_calls cs GraphicsPath.new rfl, ?_⟩
  intro p c
  cases c <;>
    refine ⟨rfl, ?_, ?_⟩ <;>
    simp [GraphicsPath.call, GraphicsPath.moveTo, GraphicsPath.lineTo, GraphicsPath.curveTo,
      GraphicsPath.wideMoveTo, GraphicsPath.wideLineTo, PathCall.tag, operandCount,
      PathCommand.val]

/-- C6 on the code: for every object of the six classes GraphicsEndFill,
GraphicsSolidFill, GraphicsGradientFill, GraphicsBitmapFill, GraphicsStroke and
GraphicsPath the downcast named after the class returns the object and it is
the only non-null one of the seven; for every GraphicsTrianglePath object all
seven downcasts, AsTrianglePath included, return null. -/
theorem downcasts_on_code :
    (∀ o : GraphicsEndFill, (IGraphicsData.Fill (.EndFill o)).AsEndFill = some o ∧
      (IGraphicsData.Fill (.EndFill o)).nonNullDowncasts = 1) ∧
    (∀ o : GraphicsSolidFill, (IGraphicsData.Fill (.SolidFill o)).AsSolidFill = some o ∧
      (IGraphicsData.Fill (.SolidFill o)).nonNullDowncasts = 1) ∧
    (∀ o : GraphicsGradientFill,
      (IGraphicsData.Fill (.GradientFill o)).AsGradientFill = some o ∧
      (IGraphicsData.Fill (.GradientFill o)).nonNullDowncasts = 1) ∧
    (∀ o : GraphicsBitmapFill, (IGraphicsData.Fill (.BitmapFill o)).AsBitmapFill = some o ∧
      (IGraphicsData.Fill (.BitmapFill o)).nonNullDowncasts = 1) ∧
    (∀ o : GraphicsStroke, (IGraphicsData.Stroke (.Stroke o)).AsStroke = some o ∧
      (IGraphicsData.Stroke (.Stroke o)).nonNullDowncasts = 1) ∧
    (∀ o : GraphicsPath, (IGraphicsData.Path (.Path o)).AsPath = some o ∧
      (IGraphicsData.Path (.Path o)).nonNullDowncasts = 1) ∧
    (∀ o : GraphicsTrianglePath,
      (IGraphicsData.Path (.TrianglePath o)).AsTrianglePath = none ∧
      (IGraphicsData.Path (.TrianglePath o)).nonNullDowncasts = 0) := by
  refine ⟨?_, ?_, ?_, ?_, ?_, ?_, ?_⟩ <;> intro o <;> exact ⟨rfl, rfl⟩

/-- C7: render batches are a three-way exclusive variant. For every SolidData
AsSolid() returns the batch itself and AsLine(), AsTriangles() return null; for
every LineData AsLine() returns the batch itself and the other two return
null; for every TriangleData AsTriangles() returns the batch itself and the
other two return null; so for every batch exactly one probe is non-null. -/
theorem renderData_probes_exclusive :
    (∀ o : SolidData, (IRenderData.Solid o).AsSolid = some o ∧
      (IRenderData.Solid o).AsLine = none ∧ (IRenderData.Solid o).AsTriangles = none) ∧
    (∀ o : LineData, (IRenderData.Line o).AsLine = some o ∧
      (IRenderData.Line o).AsSolid = none ∧ (IRenderData.Line o).AsTriangles = none) ∧
    (∀ o : TriangleData, (IRenderData.Triangles o).AsTriangles = some o ∧
      (IRenderData.Triangles o).AsSolid = none ∧ (IRenderData.Triangles o).AsLine = none) ∧
    (∀ r : IRenderData, r.nonNullProbes = 1) := by
  refine ⟨fun o => ⟨rfl, rfl, rfl⟩, fun o => ⟨rfl, rfl, rfl⟩, fun o => ⟨rfl, rfl, rfl⟩, ?_⟩
  intro r
  cases r <;> rfl

/-- C8 as stated fails beyond the int range: a GraphicsEndFill whose count is
INT_MAX gets the count INT_MIN from IncRef, not INT_MAX+1; and after
2^31+1 = 2147483649 IncRef calls on a fresh object the count is -2147483647,
so the first DecRef already destroys the object although 2^31 DecRef calls
should leave it alive. -/
theorem refcount_lifecycle_counterexample :
    (IGraphicsData.Fill (.EndFill ⟨INT_MAX⟩)).IncRef = .Fill (.EndFill ⟨INT_MIN⟩) ∧
    (IGraphicsData.Fill (.EndFill ⟨0⟩)).isFresh ∧
    IGraphicsData.IncRefs 2147483649 (.Fill (.EndFill ⟨0⟩)) = .Fill (.EndFill ⟨-2147483647⟩) ∧
    IGraphicsData.DecRefs 1 (IGraphicsData.IncRefs 2147483649 (.Fill (.EndFill ⟨0⟩))) = none := by
  have h : IGraphicsData.IncRefs 2147483649 (.Fill (.EndFill ⟨0⟩))
      = .Fill (.EndFill ⟨-2147483647⟩) := by
    rw [IncRefs_of_isInt32 _ _ (by decide)]
    decide
  refine ⟨by decide, by decide, h, ?_⟩
  rw [h]
  decide

/-- C8, amended: a freshly constructed object has count 0; while the count
stays in the int range, IncRef adds 1 and returns the same object, and DecRef
subtracts 1 and destroys the object exactly when the new count is <= 0. Hence
for every n with 1 <= n <= INT_MAX = 2^31-1, after n IncRef calls on a fresh
object the count is n, the first n-1 DecRef calls leave it alive (after k of
them the count is n-k) and the n-th DecRef destroys it; and a DecRef on a fresh
object that was never IncRef-ed destroys it. -/
theorem refcount_lifecycle (o : IGraphicsData) (n : Nat)
    (hfresh : o.isFresh) (h1 : 1 ≤ n) (hn : (n : Int) ≤ INT_MAX) :
    (IGraphicsData.Path (.Path GraphicsPath.new)).mRefCount = 0 ∧
    (∀ x : IGraphicsData, isInt32 x.mRefCount → x.mRefCount < INT_MAX →
      x.IncRef = x.setRefCount (x.mRefCount + 1)) ∧
    (∀ x : IGraphicsData, isInt32 x.mRefCount → INT_MIN < x.mRefCount →
      x.DecRef = if x.mRefCount - 1 ≤ 0 then none
        else some (x.setRefCount (x.mRefCount - 1))) ∧
    IGraphicsData.IncRefs n o = o.setRefCount n ∧
    (∀ k : Nat, k < n →
      IGraphicsData.DecRefs k (IGraphicsData.IncRefs n o) = some (o.setRefCount (n - k))) ∧
    IGraphicsData.DecRefs n (IGraphicsData.IncRefs n o) = none ∧
    o.DecRef = none := by
  have hinc : IGraphicsData.IncRefs n o = o.setRefCount n := by
    unfold IGraphicsData.isFresh at hfresh
    rw [IncRefs_of_isInt32 n o (by rw [hfresh]; decide), hfresh, zero_add]
    rw [wrap32_of_isInt32]
    unfold isInt32 INT_MIN
    exact ⟨by omega, hn⟩
  refine ⟨rfl, ?_, ?_, hinc, ?_, ?_, ?_⟩
  · intro x hx hlt
    unfold IGraphicsData.IncRef
    rw [wrap32_of_isInt32]
    unfold isInt32 INT_MIN INT_MAX at *
    omega
  · intro x hx hlt
    unfold IGraphicsData.DecRef
    have hw : wrap32 (x.mRefCount - 1) = x.mRefCount - 1 := by
      apply wrap32_of_isInt32
      unfold isInt32 INT_MIN INT_MAX at *
      omega
    simp only [hw]
  · intro k hk
    rw [hinc]
    exact DecRefs_setRefCount_alive k n o (by exact_mod_cast hk) hn
  · rw [hinc]
    exact DecRefs_setRefCount_destroy n o h1 hn
  · unfold IGraphicsData.isFresh at hfresh
    unfold IGraphicsData.DecRef
    rw [hfresh]
    have hle : wrap32 (0 - 1) ≤ 0 := by decide
    simp only [hle, if_true]

/-- Witness of C8 (amended) at a fresh GraphicsSolidFill and n = 3: the first
two DecRef calls leave the object alive, the third destroys it. -/
theorem refcount_lifecycle_witness :
    (IGraphicsData.Fill (.SolidFill ⟨0, ⟨0⟩, 255⟩)).isFresh ∧ 1 ≤ 3 ∧ ((3 : Nat) : Int) ≤ INT_MAX ∧
    IGraphicsData.DecRefs 2 (IGraphicsData.IncRefs 3 (.Fill (.SolidFill ⟨0, ⟨0⟩, 255⟩)))
      = some (.Fill (.SolidFill ⟨1, ⟨0⟩, 255⟩)) ∧
    IGraphicsData.DecRefs 3 (IGraphicsData.IncRefs 3 (.Fill (.SolidFill ⟨0, ⟨0⟩, 255⟩))) = none := by
  have h := refcount_lifecycle (.Fill (.SolidFill ⟨0, ⟨0⟩, 255⟩)) 3
    (by decide) (by decide) (by decide)
  refine ⟨by decide, by decide, by decide, ?_, h.2.2.2.2.2.1⟩
  have h2 := h.2.2.2.2.1 2 (by decide)
  rw [h2]
  rfl

/-- C9 on the code: GetType() returns the tag of the class for every object of
the four fill classes (gdtEndFill, gdtSolidFill, gdtGradientFill,
gdtBitmapFill), and returns gdtUnknown for every GraphicsStroke, every
GraphicsPath and every GraphicsTrianglePath, never gdtStroke, gdtPath or
gdtTrianglePath. -/
theorem getType_on_code :
    (∀ o : GraphicsEndFill, (IGraphicsData.Fill (.EndFill o)).GetType = .gdtEndFill) ∧
    (∀ o : GraphicsSolidFill, (IGraphicsData.Fill (.SolidFill o)).GetType = .gdtSolidFill) ∧
    (∀ o : GraphicsGradientFill,
      (IGraphicsData.Fill (.GradientFill o)).GetType = .gdtGradientFill) ∧
    (∀ o : GraphicsBitmapFill, (IGraphicsData.Fill (.BitmapFill o)).GetType = .gdtBitmapFill) ∧
    (∀ o : GraphicsStroke, (IGraphicsData.Stroke (.Stroke o)).GetType = .gdtUnknown) ∧
    (∀ o : GraphicsPath, (IGraphicsData.Path (.Path o)).GetType = .gdtUnknown) ∧
    (∀ o : GraphicsTrianglePath,
      (IGraphicsData.Path (.TrianglePath o)).GetType = .gdtUnknown) ∧
    (∀ o : IGraphicsData, o.GetType ≠ .gdtStroke ∧ o.GetType ≠ .gdtPath ∧
      o.GetType ≠ .gdtTrianglePath) := by
  refine ⟨fun _ => rfl, fun _ => rfl, fun _ => rfl, fun _ => rfl, fun _ => rfl,
    fun _ => rfl, fun _ => rfl, ?_⟩
  intro o
  rcases o with (_ | _ | _ | _) | ⟨_⟩ | (_ | _) <;> simp [IGraphicsData.GetType]

/-- C10: no stroke item is ever a clear-stroke item. For every GraphicsStroke,
whatever its caps, joints, thickness, scale mode, miter limit, pixel-hinting
flag and fill, IsClear() returns false. -/
theorem stroke_isClear_false (mRefCount : Int) (caps : StrokeCaps) (fill : Option IGraphicsFill)
    (joints : StrokeJoints) (miterLimit : double) (pixelHinting : Bool)
    (scaleMode : StrokeScaleMode) (thickness : double) :
    (GraphicsStroke.mk mRefCount caps fill joints miterLimit pixelHinting scaleMode
      thickness).IsClear = false ∧
    (∀ s : GraphicsStroke, s.IsClear = false) :=
  ⟨rfl, fun _ => rfl⟩

end NME
